import Mathlib

/-!
Verification of the event-extraction core of `openclaw-watcher.py`.

The program consumes newline-delimited JSON session logs and extracts
(timestamp, label, payload) records for five rule categories
(exec, thinking, web, fetch, file).  We shallowly embed the JSON value
space, the dynamic (Python-style) field access used by the script, and
the extraction pipeline of `main`, and then settle the frozen claims
about that code.
-/

set_option maxHeartbeats 1000000

/-- A JSON value as produced by `json.loads`: `null` is Python `None`,
objects are Python dicts (keys unique), arrays are Python lists.
Numbers are modelled as integers (no claim touches fractional values). -/
inductive Json where
  | null : Json
  | bool : Bool → Json
  | num : Int → Json
  | str : String → Json
  | arr : List Json → Json
  | obj : List (String × Json) → Json
deriving Repr

/-- Python truthiness (`bool(v)`) of a JSON-decoded value. -/
def Json.truthy : Json → Bool
  | .null => false
  | .bool b => b
  | .num n => n != 0
  | .str s => s != ""
  | .arr xs => !xs.isEmpty
  | .obj kvs => !kvs.isEmpty

/-- Whether the value is a Python dict (`isinstance(v, dict)`). -/
def Json.isDict : Json → Bool
  | .obj _ => true
  | _ => false

/-- `dict.get(k)`: the value stored under `k`, or `None` when the key is
absent.  (Python dict keys are unique, so first match is the match.) -/
def dictGet (kvs : List (String × Json)) (k : String) : Json :=
  match kvs.find? (fun p => p.1 == k) with
  | some p => p.2
  | none => Json.null

/-- `v.get(k)` where the callers have already ensured `v` is a dict;
totalized with `None` on non-dicts (that branch is unreachable in the
pipeline, which only feeds dicts to the extractors). -/
def Json.pyGet : Json → String → Json
  | .obj kvs, k => dictGet kvs k
  | _, _ => Json.null

/-- Presence-aware field lookup (`k in v` together with `v[k]`):
`none` exactly when `v` is not a dict or lacks the key. -/
def getField : Json → String → Option Json
  | .obj kvs, k =>
    match kvs.find? (fun p => p.1 == k) with
    | some p => some p.2
    | none => none
  | _, _ => none

/-- `_safe_get(d, *keys)` from the source: walk the key chain, returning
`None` (here `Json.null`, which is what Python's `None` decodes from)
as soon as the current value is not a dict or lacks the next key. -/
def safe_get : Json → List String → Json
  | cur, [] => cur
  | Json.obj kvs, k :: ks =>
    match kvs.find? (fun p => p.1 == k) with
    | some p => safe_get p.2 ks
    | none => Json.null
  | _, _ :: _ => Json.null

/-- Python `v == "s"` for a decoded value `v` and a string literal:
true exactly when `v` is that string. -/
def strEq (v : Json) (s : String) : Bool :=
  match v with
  | Json.str t => t == s
  | _ => false

/-- The characters removed by Python's `str.strip()` (ASCII whitespace;
the script's payloads never contain the exotic Unicode spaces). -/
def isPySpace (c : Char) : Bool :=
  c == ' ' || c == '\t' || c == '\n' || c == '\r' || c == '\x0b' || c == '\x0c'

/-- Python `str.strip()`: remove leading and trailing whitespace. -/
def pyStrip (s : String) : String :=
  ⟨((s.data.dropWhile isPySpace).reverse.dropWhile isPySpace).reverse⟩

mutual
/-- Python `repr` of a decoded JSON value (string escaping inside
container renderings is not reproduced; no rule payload depends on it). -/
def pyRepr : Json → String
  | .null => "None"
  | .bool true => "True"
  | .bool false => "False"
  | .num n => toString n
  | .str s => "'" ++ s ++ "'"
  | .arr xs => "[" ++ pyReprList xs ++ "]"
  | .obj kvs => "\x7b" ++ pyReprObj kvs ++ "\x7d"

/-- Comma-separated reprs of the elements of a Python list. -/
def pyReprList : List Json → String
  | [] => ""
  | [x] => pyRepr x
  | x :: xs => pyRepr x ++ ", " ++ pyReprList xs

/-- Comma-separated `'key': value` reprs of the entries of a dict. -/
def pyReprObj : List (String × Json) → String
  | [] => ""
  | [(k, v)] => "'" ++ k ++ "': " ++ pyRepr v
  | (k, v) :: kvs => "'" ++ k ++ "': " ++ pyRepr v ++ ", " ++ pyReprObj kvs
end

/-- Python `str(v)` of a decoded JSON value. -/
def pyStr : Json → String
  | .str s => s
  | v => pyRepr v

/-- Python `a or b`: `a` when truthy, else `b`. -/
def pyOr (a b : Json) : Json :=
  if a.truthy then a else b

/-- Python `v is None` for a decoded value. -/
def Json.isNull : Json → Bool
  | .null => true
  | _ => false

/-- `_get_timestamp` from the source.  The script returns the raw value
(`ts or "UNKNOWN_TIME"`) and stringifies it in the output f-string; the
stringification is folded in here since every consumer immediately
formats the value. -/
def get_timestamp (obj : Json) : String :=
  let ts := obj.pyGet "timestamp"
  let ts :=
    if ts.truthy then ts
    else
      let ts_val := safe_get obj ["message", "timestamp"]
      if !ts_val.isNull then Json.str (pyStr ts_val) else ts
  if ts.truthy then pyStr ts else "UNKNOWN_TIME"

/-- `_message_content` from the source: `message.content` when it is a
list, `None` otherwise. -/
def message_content (obj : Json) : Option (List Json) :=
  match safe_get obj ["message", "content"] with
  | Json.arr xs => some xs
  | _ => none

/-- Fuel-indexed core of Python `s.replace(pat, rep)`: replace each
leftmost, non-overlapping occurrence of `pat`.  Every step consumes at
least one character and one unit of fuel, so with fuel at least the list
length the zero-fuel arm is never reached (structural recursion on the
fuel keeps the function kernel-reducible). -/
def listReplaceFuel (pat rep : List Char) : Nat → List Char → List Char
  | _, [] => []
  | 0, _ => []
  | fuel + 1, c :: cs =>
    if pat ≠ [] ∧ pat.isPrefixOf (c :: cs) then
      rep ++ listReplaceFuel pat rep fuel (cs.drop (pat.length - 1))
    else
      c :: listReplaceFuel pat rep fuel cs

/-- Python `s.replace(pat, rep)` on character lists. -/
def listReplace (pat rep l : List Char) : List Char :=
  listReplaceFuel pat rep l.length l

/-- Python `s.replace(pat, rep)` on strings. -/
def pyReplace (s pat rep : String) : String :=
  ⟨listReplace pat.data rep.data s.data⟩

/-- The thinking-payload normalization of `main` (line 360):
`t.replace("\r\n", "\n").replace("\r", "\n").replace("\n", "\\n")`. -/
def escape_newlines (t : String) : String :=
  pyReplace (pyReplace (pyReplace t "\r\n" "\n") "\r" "\n") "\n" "\\n"

/-- Per-item contribution of the `_extract_execs` loop body. -/
def execItem (ts : String) (item : Json) : List (String × String) :=
  match item with
  | Json.obj kvs =>
    if !strEq (dictGet kvs "type") "toolCall" then []
    else if !strEq (dictGet kvs "name") "exec" then []
    else
      match safe_get (Json.obj kvs) ["arguments", "command"] with
      | Json.str cmd => if pyStrip cmd != "" then [(ts, pyStrip cmd)] else []
      | _ => []
  | _ => []

/-- `_extract_execs` from the source. -/
def extract_execs (obj : Json) : List (String × String) :=
  if !strEq (obj.pyGet "type") "message" then []
  else
    let ts := get_timestamp obj
    match message_content obj with
    | none => []
    | some content => content.foldl (fun out item => out ++ execItem ts item) []

/-- Per-item contribution of the `_extract_thinking` loop body. -/
def thinkingItem (ts : String) (item : Json) : List (String × String) :=
  match item with
  | Json.obj kvs =>
    if !strEq (dictGet kvs "type") "thinking" then []
    else
      match dictGet kvs "thinking" with
      | Json.str t => if pyStrip t != "" then [(ts, pyStrip t)] else []
      | _ => []
  | _ => []

/-- `_extract_thinking` from the source. -/
def extract_thinking (obj : Json) : List (String × String) :=
  if !strEq (obj.pyGet "type") "message" then []
  else
    let ts := get_timestamp obj
    match message_content obj with
    | none => []
    | some content => content.foldl (fun out item => out ++ thinkingItem ts item) []

/-- Per-item contribution of the `_extract_web_searches` loop body. -/
def webItem (ts : String) (item : Json) : List (String × String) :=
  match item with
  | Json.obj kvs =>
    if !strEq (dictGet kvs "type") "toolCall" then []
    else if !strEq (dictGet kvs "name") "web_search" then []
    else
      match safe_get (Json.obj kvs) ["arguments", "query"] with
      | Json.str q => if pyStrip q != "" then [(ts, pyStrip q)] else []
      | _ => []
  | _ => []

/-- `_extract_web_searches` from the source. -/
def extract_web_searches (obj : Json) : List (String × String) :=
  if !strEq (obj.pyGet "type") "message" then []
  else
    let ts := get_timestamp obj
    match message_content obj with
    | none => []
    | some content => content.foldl (fun out item => out ++ webItem ts item) []

/-- Per-item contribution of the `_extract_web_fetches` loop body. -/
def fetchItem (ts : String) (item : Json) : List (String × String) :=
  match item with
  | Json.obj kvs =>
    if !strEq (dictGet kvs "type") "toolCall" then []
    else if !strEq (dictGet kvs "name") "web_fetch" then []
    else
      match safe_get (Json.obj kvs) ["arguments", "url"] with
      | Json.str u => if pyStrip u != "" then [(ts, pyStrip u)] else []
      | _ => []
  | _ => []

/-- `_extract_web_fetches` from the source. -/
def extract_web_fetches (obj : Json) : List (String × String) :=
  if !strEq (obj.pyGet "type") "message" then []
  else
    let ts := get_timestamp obj
    match message_content obj with
    | none => []
    | some content => content.foldl (fun out item => out ++ fetchItem ts item) []

/-- The final payload step of `_extract_file_events`:
`path.strip()` when `path` is a string that is non-empty after
stripping (`isinstance(path, str) and path.strip()`), else the sentinel
`"UNKNOWN_PATH"`. -/
def pathToPayload (v : Json) : String :=
  match v with
  | Json.str s => if pyStrip s != "" then pyStrip s else "UNKNOWN_PATH"
  | _ => "UNKNOWN_PATH"

/-- Per-item contribution of the `_extract_file_events` loop body.
The path expression is the Python truthiness chain
`args.get("path") or args.get("file_path") or args.get("filepath")
 or args.get("filename") or args.get("target")` (left associated). -/
def fileItem (ts : String) (item : Json) : List (String × String × String) :=
  match item with
  | Json.obj kvs =>
    if !strEq (dictGet kvs "type") "toolCall" then []
    else
      match dictGet kvs "name" with
      | Json.str a =>
        if !(["read", "write", "edit"].contains a) then []
        else
          let args : List (String × Json) :=
            match dictGet kvs "arguments" with
            | Json.obj akvs => akvs
            | _ => []
          let path :=
            pyOr (pyOr (pyOr (pyOr (dictGet args "path") (dictGet args "file_path"))
              (dictGet args "filepath")) (dictGet args "filename")) (dictGet args "target")
          [(ts, a, pathToPayload path)]
      | _ => []
  | _ => []

/-- `_extract_file_events` from the source: `(timestamp, action, path)`
triples with `action ∈ {read, write, edit}`. -/
def extract_file_events (obj : Json) : List (String × String × String) :=
  if !strEq (obj.pyGet "type") "message" then []
  else
    let ts := get_timestamp obj
    match message_content obj with
    | none => []
    | some content => content.foldl (fun out item => out ++ fileItem ts item) []

/-- One output record of the script: timestamp, event label, payload.
The tab-separated, optionally colorized rendering of these three fields
is presentation (spec §1 places color/TTY handling out of scope). -/
structure Event where
  ts : String
  label : String
  payload : String
deriving Repr, DecidableEq

/-- The valid mode tokens accepted on the command line. -/
def validModes : List String := ["exec", "thinking", "web", "fetch", "file", "all"]

/-- Whether rule category `m` (one of the five rule names) is active for
the given tokens.  This is membership in `set(args.modes)` after `main`
expands `"all"` into the five concrete modes. -/
def modeActive (tokens : List String) (m : String) : Bool :=
  tokens.contains m ||
    (tokens.contains "all" && ["exec", "thinking", "web", "fetch", "file"].contains m)

/-- The records appended by `main` for one parsed object, in the
source's fixed rule order exec, thinking, web, fetch, file.  The
thinking payload is escaped unless `--keep-newlines` was given
(line 360 of the source). -/
def eventsOfObj (tokens : List String) (keep : Bool) (obj : Json) : List Event :=
  (if modeActive tokens "exec" then
    (extract_execs obj).map (fun p => ⟨p.1, "exec", p.2⟩) else [])
  ++ (if modeActive tokens "thinking" then
    (extract_thinking obj).map
      (fun p => ⟨p.1, "thinking", if keep then p.2 else escape_newlines p.2⟩) else [])
  ++ (if modeActive tokens "web" then
    (extract_web_searches obj).map (fun p => ⟨p.1, "web", p.2⟩) else [])
  ++ (if modeActive tokens "fetch" then
    (extract_web_fetches obj).map (fun p => ⟨p.1, "fetch", p.2⟩) else [])
  ++ (if modeActive tokens "file" then
    (extract_file_events obj).map (fun p => ⟨p.1, p.2.1, p.2.2⟩) else [])

/-- `sorted(set(args.modes) - valid)`: the invalid tokens, deduplicated
and sorted lexicographically. -/
def unknownModes (tokens : List String) : List String :=
  List.insertionSort (fun a b => a ≤ b)
    ((tokens.filter (fun t => !validModes.contains t)).dedup)

/-- The `[error]` message printed for unknown mode tokens. -/
def unknownMsg (unk : List String) : String :=
  "[error] Unknown mode(s): " ++ String.intercalate ", " unk ++
    ". Valid: exec, thinking, web, fetch, file, all"

/-- Outcome of a run of `main` (after argument parsing): either the
usage error `return 2` with its stderr message, or normal completion
(exit 0) with the printed records and the stderr warnings. -/
inductive RunResult where
  | usageError (code : Nat) (msg : String) : RunResult
  | ok (records : List Event) (warnings : List String) : RunResult
deriving Repr, DecidableEq

/-- One iteration of the main loop for a raw line from source `src`:
strip, skip blanks, parse (the external `json.loads` is the oracle
`parse`), warn on parse failure when `--errors stderr` (the default),
skip non-dict values, otherwise extract events. -/
def processLine (tokens : List String) (errorsStderr keep : Bool)
    (parse : String → Except String Json) (src rawLine : String) :
    List Event × List String :=
  let line := pyStrip rawLine
  if line == "" then ([], [])
  else
    match parse line with
    | Except.error e =>
      ([], if errorsStderr then ["[warn] " ++ src ++ ": invalid JSON: " ++ e] else [])
    | Except.ok obj =>
      if obj.isDict then (eventsOfObj tokens keep obj, []) else ([], [])

/-- The accumulation loop of `main`: fold over `(source, line)` pairs,
appending each line's records and warnings. -/
def collectAll (tokens : List String) (errorsStderr keep : Bool)
    (parse : String → Except String Json) (lines : List (String × String)) :
    List Event × List String :=
  lines.foldl
    (fun acc sl =>
      let r := processLine tokens errorsStderr keep parse sl.1 sl.2
      (acc.1 ++ r.1, acc.2 ++ r.2))
    ([], [])

/-- `main` from the source, after argument parsing and input discovery
(file reading and the sessions.json autodetection are I/O collaborators,
out of scope per spec §1; `lines` is the already-read line sequence and
`parse` stands for `json.loads`).  Mode validation exits with code 2;
otherwise records are collected and `--last N` keeps the final slice
`output_lines[-N:]` when `N > 0`. -/
def runMain (tokens : List String) (errorsStderr keep : Bool) (last : Int)
    (parse : String → Except String Json) (lines : List (String × String)) :
    RunResult :=
  if unknownModes tokens == [] then
    let acc := collectAll tokens errorsStderr keep parse lines
    RunResult.ok
      (if 0 < last then acc.1.drop (acc.1.length - last.toNat) else acc.1)
      acc.2
  else
    RunResult.usageError 2 (unknownMsg (unknownModes tokens))

/-- The records a run prints (empty on a usage error, which prints none). -/
def runRecords (tokens : List String) (errorsStderr keep : Bool) (last : Int)
    (parse : String → Except String Json) (lines : List (String × String)) :
    List Event :=
  match runMain tokens errorsStderr keep last parse lines with
  | RunResult.ok records _ => records
  | RunResult.usageError _ _ => []

/-- The warnings a run sends to the error channel. -/
def runWarnings (tokens : List String) (errorsStderr keep : Bool) (last : Int)
    (parse : String → Except String Json) (lines : List (String × String)) :
    List String :=
  match runMain tokens errorsStderr keep last parse lines with
  | RunResult.ok _ warnings => warnings
  | RunResult.usageError _ _ => []

/-! ### Spec-side definitions

The following definitions transcribe the claims' own wording, to be
compared against the source-derived definitions above. -/

/-- The exec rule as the spec words it: only for records whose `type`
equals `"message"` with a `message.content` array; one event per content
item that is an object with `type == "toolCall"` and `name == "exec"`,
with payload the trimmed `arguments.command`, if and only if that field
is a string that is non-empty after trimming. -/
def execRuleSpec (obj : Json) : List (String × String) :=
  if strEq (obj.pyGet "type") "message" then
    match message_content obj with
    | some content =>
      content.filterMap (fun item =>
        if item.isDict && strEq (item.pyGet "type") "toolCall"
            && strEq (item.pyGet "name") "exec" then
          match safe_get item ["arguments", "command"] with
          | Json.str c =>
            if pyStrip c != "" then some (get_timestamp obj, pyStrip c) else none
          | _ => none
        else none)
    | none => []
  else []

/-- The file-rule argument keys, in the claimed priority order. -/
def fileKeys : List String := ["path", "file_path", "filepath", "filename", "target"]

/-- The file-rule payload as claim C1 words it: the first present and
non-empty of the five argument fields, in priority order, trimmed; the
sentinel `"UNKNOWN_PATH"` when none is present and non-empty. -/
def filePayloadClaim (args : List (String × Json)) : String :=
  match fileKeys.findSome? (fun k =>
    match dictGet args k with
    | Json.str s => if s != "" then some s else none
    | _ => none) with
  | some s => pyStrip s
  | none => "UNKNOWN_PATH"

/-- The file-rule payload as amended: select the first field in priority
order whose value is truthy; the payload is that value trimmed when it
is a string with non-whitespace content, and the sentinel
`"UNKNOWN_PATH"` when no field is truthy or the selected value is not
such a string. -/
def filePayloadAmended (args : List (String × Json)) : String :=
  match fileKeys.findSome? (fun k =>
    let v := dictGet args k
    if v.truthy then some v else none) with
  | some (Json.str s) => if pyStrip s != "" then pyStrip s else "UNKNOWN_PATH"
  | some _ => "UNKNOWN_PATH"
  | none => "UNKNOWN_PATH"

/-- The file rule as amended: same gate as the other rules; for each
content item that is an object with `type == "toolCall"` and `name` in
{read, write, edit} (as a string), exactly one event labeled with the
specific action name and carrying `filePayloadAmended` of its arguments
dict (an absent or non-dict `arguments` counts as the empty dict). -/
def fileRuleAmended (obj : Json) : List (String × String × String) :=
  if strEq (obj.pyGet "type") "message" then
    match message_content obj with
    | some content =>
      content.filterMap (fun item =>
        match item with
        | Json.obj kvs =>
          if strEq (dictGet kvs "type") "toolCall" then
            match dictGet kvs "name" with
            | Json.str a =>
              if ["read", "write", "edit"].contains a then
                let args : List (String × Json) :=
                  match dictGet kvs "arguments" with
                  | Json.obj akvs => akvs
                  | _ => []
                some (get_timestamp obj, a, filePayloadAmended args)
              else none
            | _ => none
          else none
        | _ => none)
    | none => []
  else []

/-- The timestamp as claim C5 words it: the string in the record's
top-level `timestamp` field; the nested `message.timestamp` if that
field is absent; the sentinel `"UNKNOWN_TIME"` when neither is present. -/
def timestampClaim (obj : Json) : String :=
  match getField obj "timestamp" with
  | some v => pyStr v
  | none =>
    match (getField obj "message").bind (fun m => getField m "timestamp") with
    | some v => pyStr v
    | none => "UNKNOWN_TIME"

/-- The timestamp as amended: the top-level `timestamp` value when it is
truthy (for strings: non-empty); otherwise the nested
`message.timestamp`, stringified, when it is present, non-null and its
string form is non-empty; otherwise the sentinel `"UNKNOWN_TIME"`. -/
def timestampAmended (obj : Json) : String :=
  let top := obj.pyGet "timestamp"
  if top.truthy then pyStr top
  else
    let nested := safe_get obj ["message", "timestamp"]
    if !nested.isNull && pyStr nested != "" then pyStr nested
    else "UNKNOWN_TIME"

/-- The object a raw input line contributes, as the spec words the line
handling: blank lines, unparseable lines and non-object values yield
nothing. -/
def lineObj (parse : String → Except String Json) (rawLine : String) : Option Json :=
  let line := pyStrip rawLine
  if line == "" then none
  else
    match parse line with
    | Except.ok obj => if obj.isDict then some obj else none
    | Except.error _ => none

/-- All events of a run in encounter order of input lines, as the spec
words the ordering (rule order within a line is fixed in
`eventsOfObj`). -/
def collectedEvents (tokens : List String) (keep : Bool)
    (parse : String → Except String Json) (lines : List (String × String)) :
    List Event :=
  lines.flatMap (fun sl =>
    match lineObj parse sl.2 with
    | some obj => eventsOfObj tokens keep obj
    | none => [])

/-- "Keep only the final N entries" as claim C6 words the truncation:
for positive N, the last N entries of the list; otherwise everything. -/
def keepLast (n : Int) (l : List Event) : List Event :=
  if 0 < n then (l.reverse.take n.toNat).reverse else l

/-- The per-event payload invariant of amended claim C4: the payload is
non-empty, and a thinking event's payload is a single physical line
whenever newline preservation is off. -/
def payloadOk (keep : Bool) (e : Event) : Bool :=
  e.payload != "" && (keep || e.label != "thinking" || !(e.payload.data.contains '\n'))

/-! ### Concrete inputs used by witnesses and counterexamples -/

/-- A `type == "message"` record with timestamp `"T"` and the given
content array. -/
def mkMessage (content : List Json) : Json :=
  Json.obj [("type", Json.str "message"), ("timestamp", Json.str "T"),
    ("message", Json.obj [("content", Json.arr content)])]

/-- A toolCall content item with the given name and arguments dict. -/
def toolCallItem (name : String) (args : List (String × Json)) : Json :=
  Json.obj [("type", Json.str "toolCall"), ("name", Json.str name),
    ("arguments", Json.obj args)]

/-- A message record holding one exec toolCall with the given command. -/
def objExec (cmd : String) : Json :=
  mkMessage [toolCallItem "exec" [("command", Json.str cmd)]]

/-- A message record holding one thinking item with the given text. -/
def objThinking (t : String) : Json :=
  mkMessage [Json.obj [("type", Json.str "thinking"), ("thinking", Json.str t)]]

/-- A stand-in for `json.loads` over the concrete demo lines: five exec
records, one exec record with an embedded newline in its command, one
thinking record with two text lines, and a parse failure for anything
else. -/
def demoParse : String → Except String Json := fun s =>
  if s == "L1" then Except.ok (objExec "c1")
  else if s == "L2" then Except.ok (objExec "c2")
  else if s == "L3" then Except.ok (objExec "c3")
  else if s == "L4" then Except.ok (objExec "c4")
  else if s == "L5" then Except.ok (objExec "c5")
  else if s == "NL" then Except.ok (objExec "ls\npwd")
  else if s == "TH" then Except.ok (objThinking "line1\nline2")
  else if s == "ARR" then Except.ok (Json.arr [Json.num 1])
  else Except.error "Expecting value: line 1 column 1 (char 0)"

/-- Five demo input lines that each yield one exec event. -/
def demoLines5 : List (String × String) :=
  [("f", "L1"), ("f", "L2"), ("f", "L3"), ("f", "L4"), ("f", "L5")]

/-- The five exec events of `demoLines5`, in encounter order. -/
def demoEvents5 : List Event :=
  [⟨"T", "exec", "c1"⟩, ⟨"T", "exec", "c2"⟩, ⟨"T", "exec", "c3"⟩,
   ⟨"T", "exec", "c4"⟩, ⟨"T", "exec", "c5"⟩]

/-! ### Helper lemmas -/

/-- An append-left fold (the Python `out.append` loop) is a `flatMap`. -/
theorem foldl_append_eq_flatMap {α β : Type} (f : α → List β) :
    ∀ (l : List α) (acc : List β),
      l.foldl (fun out i => out ++ f i) acc = acc ++ l.flatMap f := by
  intro l
  induction l with
  | nil => intro acc; simp
  | cons a l ih =>
    intro acc
    simp only [List.foldl_cons, List.flatMap_cons, ih, List.append_assoc]

/-- A `flatMap` whose pieces are empty-or-singleton is a `filterMap`. -/
theorem flatMap_eq_filterMap {α β : Type} (g : α → List β) (f : α → Option β)
    (h : ∀ a, g a = (f a).toList) : ∀ l : List α, l.flatMap g = l.filterMap f := by
  intro l
  induction l with
  | nil => simp
  | cons a l ih =>
    simp only [List.flatMap_cons, List.filterMap_cons, ih, h a]
    cases f a <;> simp

/-- The two components of the main accumulation loop. -/
theorem collectAll_eq (tokens : List String) (errorsStderr keep : Bool)
    (parse : String → Except String Json) (lines : List (String × String)) :
    collectAll tokens errorsStderr keep parse lines =
      (lines.flatMap (fun sl => (processLine tokens errorsStderr keep parse sl.1 sl.2).1),
       lines.flatMap (fun sl => (processLine tokens errorsStderr keep parse sl.1 sl.2).2)) := by
  unfold collectAll
  suffices h : ∀ (ls : List (String × String)) (a : List Event) (b : List String),
      ls.foldl
        (fun acc sl =>
          let r := processLine tokens errorsStderr keep parse sl.1 sl.2
          (acc.1 ++ r.1, acc.2 ++ r.2)) (a, b) =
      (a ++ ls.flatMap (fun sl => (processLine tokens errorsStderr keep parse sl.1 sl.2).1),
       b ++ ls.flatMap (fun sl => (processLine tokens errorsStderr keep parse sl.1 sl.2).2)) by
    simpa using h lines [] []
  intro ls
  induction ls with
  | nil => intro a b; simp
  | cons sl ls ih =>
    intro a b
    simp only [List.foldl_cons, List.flatMap_cons, ih, List.append_assoc]

/-- At any fuel, single-character replacement eliminates that character
whenever the replacement does not contain it. -/
theorem listReplaceFuel_single_not_mem (x : Char) (rep : List Char) (hx : x ∉ rep) :
    ∀ (fuel : Nat) (l : List Char), x ∉ listReplaceFuel [x] rep fuel l := by
  intro fuel
  induction fuel with
  | zero =>
    intro l
    cases l <;> simp [listReplaceFuel]
  | succ fuel ih =>
    intro l
    cases l with
    | nil => simp [listReplaceFuel]
    | cons c cs =>
      simp only [listReplaceFuel]
      by_cases h : c = x
      · subst h
        rw [if_pos ⟨by simp, by simp [List.isPrefixOf]⟩]
        intro hmem
        rcases List.mem_append.mp hmem with hmem | hmem
        · exact hx hmem
        · exact ih _ hmem
      · rw [if_neg ?hneg]
        case hneg =>
          rintro ⟨-, hpre⟩
          have hxc : x = c := by simpa [List.isPrefixOf] using hpre
          exact h hxc.symm
        intro hmem
        rcases List.mem_cons.mp hmem with hmem | hmem
        · exact h hmem.symm
        · exact ih _ hmem

/-- Single-character replacement eliminates that character whenever the
replacement does not contain it. -/
theorem not_mem_listReplace_single (x : Char) (rep : List Char) (hx : x ∉ rep) :
    ∀ l : List Char, x ∉ listReplace [x] rep l :=
  fun l => listReplaceFuel_single_not_mem x rep hx l.length l

/-- Replacement with a non-empty replacement never empties a non-empty
list. -/
theorem listReplace_ne_nil (pat rep : List Char) (hrep : rep ≠ [])
    (c : Char) (cs : List Char) : listReplace pat rep (c :: cs) ≠ [] := by
  simp only [listReplace, List.length_cons, listReplaceFuel]
  by_cases h : pat ≠ [] ∧ pat.isPrefixOf (c :: cs)
  · simp only [if_pos h]
    intro hnil
    rcases List.append_eq_nil.mp hnil with ⟨h1, _⟩
    exact hrep h1
  · simp only [if_neg h]
    intro hnil
    exact List.cons_ne_nil _ _ hnil

/-- The escaped thinking payload contains no newline character: the
final `replace("\n", "\\n")` removes every `'\n'` and inserts none. -/
theorem escape_newlines_no_newline (t : String) :
    '\n' ∉ (escape_newlines t).data := by
  unfold escape_newlines pyReplace
  apply not_mem_listReplace_single
  intro h
  simp at h

/-- Escaping a non-empty string yields a non-empty string. -/
theorem escape_newlines_ne_empty (t : String) (ht : t ≠ "") :
    escape_newlines t ≠ "" := by
  have hdata : t.data ≠ [] := by
    intro h
    exact ht (by cases t; simp_all)
  unfold escape_newlines pyReplace
  intro hcontra
  have hlist : listReplace ['\n'] ['\\', 'n']
      (listReplace ['\r'] ['\n'] (listReplace ['\r', '\n'] ['\n'] t.data)) = [] := by
    have := congrArg String.data hcontra
    simpa using this
  obtain ⟨c1, cs1, h1⟩ : ∃ c cs, listReplace ['\r', '\n'] ['\n'] t.data = c :: cs := by
    cases hd : t.data with
    | nil => exact absurd hd hdata
    | cons c cs =>
      cases hr : listReplace ['\r', '\n'] ['\n'] (c :: cs) with
      | nil => exact absurd hr (listReplace_ne_nil _ _ (by simp) c cs)
      | cons d ds => exact ⟨d, ds, by rfl⟩
  obtain ⟨c2, cs2, h2⟩ : ∃ c cs, listReplace ['\r'] ['\n'] (c1 :: cs1) = c :: cs := by
    cases hr : listReplace ['\r'] ['\n'] (c1 :: cs1) with
    | nil => exact absurd hr (listReplace_ne_nil _ _ (by simp) c1 cs1)
    | cons d ds => exact ⟨d, ds, rfl⟩
  rw [h1, h2] at hlist
  exact listReplace_ne_nil _ _ (by simp) c2 cs2 hlist

/-- `contains` is `false` on lists missing the element. -/
theorem contains_eq_false_of_not_mem {α : Type} [BEq α] [LawfulBEq α]
    {a : α} {l : List α} (h : a ∉ l) : l.contains a = false := by
  simp only [List.contains, List.elem_eq_mem, decide_eq_false_iff_not]
  exact h

/-- Every payload produced by the exec loop body is non-empty. -/
theorem execItem_payload_ne (ts : String) (item : Json) :
    ∀ p ∈ execItem ts item, p.2 ≠ "" := by
  intro p hp
  unfold execItem at hp
  split at hp <;> [skip; simp at hp]
  split at hp <;> [simp at hp; skip]
  split at hp <;> [simp at hp; skip]
  split at hp <;> [skip; simp at hp]
  split at hp <;> [skip; simp at hp]
  rename_i hne
  rw [List.mem_singleton] at hp
  subst hp
  simpa using hne

/-- Every payload produced by the thinking loop body is non-empty. -/
theorem thinkingItem_payload_ne (ts : String) (item : Json) :
    ∀ p ∈ thinkingItem ts item, p.2 ≠ "" := by
  intro p hp
  unfold thinkingItem at hp
  split at hp <;> [skip; simp at hp]
  split at hp <;> [simp at hp; skip]
  split at hp <;> [skip; simp at hp]
  split at hp <;> [skip; simp at hp]
  rename_i hne
  rw [List.mem_singleton] at hp
  subst hp
  simpa using hne

/-- Every payload produced by the web-search loop body is non-empty. -/
theorem webItem_payload_ne (ts : String) (item : Json) :
    ∀ p ∈ webItem ts item, p.2 ≠ "" := by
  intro p hp
  unfold webItem at hp
  split at hp <;> [skip; simp at hp]
  split at hp <;> [simp at hp; skip]
  split at hp <;> [simp at hp; skip]
  split at hp <;> [skip; simp at hp]
  split at hp <;> [skip; simp at hp]
  rename_i hne
  rw [List.mem_singleton] at hp
  subst hp
  simpa using hne

/-- Every payload produced by the web-fetch loop body is non-empty. -/
theorem fetchItem_payload_ne (ts : String) (item : Json) :
    ∀ p ∈ fetchItem ts item, p.2 ≠ "" := by
  intro p hp
  unfold fetchItem at hp
  split at hp <;> [skip; simp at hp]
  split at hp <;> [simp at hp; skip]
  split at hp <;> [simp at hp; skip]
  split at hp <;> [skip; simp at hp]
  split at hp <;> [skip; simp at hp]
  rename_i hne
  rw [List.mem_singleton] at hp
  subst hp
  simpa using hne

/-- A name that passes the file rule's action filter is one of the
three file actions. -/
theorem fileAction_mem (a : String)
    (h : (!(["read", "write", "edit"] : List String).contains a) = false) :
    a ∈ (["read", "write", "edit"] : List String) := by
  have h' : ((["read", "write", "edit"] : List String).contains a) = true := by
    cases hc : (["read", "write", "edit"] : List String).contains a
    · rw [hc] at h
      simp at h
    · rfl
  simpa [List.contains, List.elem_eq_mem] using h'

/-- Unfolds one of the five extractors into a `flatMap` over its
content items (the gate and content lookup being equal in all five). -/
theorem extract_eq_flatMap {β : Type} (itemFn : String → Json → List β) (obj : Json)
    (p : β)
    (hp : p ∈ (if !strEq (obj.pyGet "type") "message" then []
      else
        let ts := get_timestamp obj
        match message_content obj with
        | none => []
        | some content => content.foldl (fun out item => out ++ itemFn ts item) [])) :
    ∃ content item, message_content obj = some content ∧ item ∈ content ∧
      p ∈ itemFn (get_timestamp obj) item := by
  split at hp
  · simp at hp
  · dsimp only at hp
    split at hp
    · simp at hp
    · rename_i content heq
      rw [foldl_append_eq_flatMap] at hp
      rcases List.mem_flatMap.mp (by simpa using hp) with ⟨item, hitem, hpi⟩
      exact ⟨content, item, heq, hitem, hpi⟩

/-- The file-rule payload is never the empty string. -/
theorem pathToPayload_ne_empty (v : Json) : pathToPayload v ≠ "" := by
  cases v <;> simp only [pathToPayload] <;> try decide
  split
  · rename_i h
    simpa using h
  · decide

/-- Every file event has a non-empty payload and one of the three file
action labels. -/
theorem fileItem_payload_label (ts : String) (item : Json) :
    ∀ p ∈ fileItem ts item, p.2.2 ≠ "" ∧ p.2.1 ∈ (["read", "write", "edit"] : List String) := by
  intro p hp
  unfold fileItem at hp
  split at hp <;> [skip; simp at hp]
  split at hp <;> [simp at hp; skip]
  split at hp <;> [skip; simp at hp]
  split at hp <;> [simp at hp; skip]
  rename_i hact
  simp only [Bool.not_eq_true, Bool.not_eq_false] at hact
  simp only [List.mem_singleton] at hp
  subst hp
  exact ⟨pathToPayload_ne_empty _, by simpa using fileAction_mem _ hact⟩

/-- Every event produced from one object satisfies the amended payload
invariant: non-empty payload, and single-line thinking payloads when
newline preservation is off. -/
theorem eventsOfObj_payloadOk (tokens : List String) (keep : Bool) (obj : Json) :
    (eventsOfObj tokens keep obj).all (payloadOk keep) = true := by
  rw [List.all_eq_true]
  intro e he
  unfold eventsOfObj at he
  simp only [List.mem_append] at he
  rcases he with ((((he | he) | he) | he) | he) <;>
    (split at he <;> [skip; simp at he]) <;>
    rcases List.mem_map.mp he with ⟨p, hp, rfl⟩
  · -- exec events
    rcases extract_eq_flatMap execItem obj p hp with ⟨content, item, _, _, hpi⟩
    have hne := execItem_payload_ne _ _ _ hpi
    simp [payloadOk, hne]
  · -- thinking events
    rcases extract_eq_flatMap thinkingItem obj p hp with ⟨content, item, _, _, hpi⟩
    have hne := thinkingItem_payload_ne _ _ _ hpi
    cases keep with
    | true => simp [payloadOk, hne]
    | false =>
      have hesc := escape_newlines_ne_empty _ hne
      have hnl := escape_newlines_no_newline p.2
      simp only [payloadOk]
      simp [hesc]
      exact hnl
  · -- web events
    rcases extract_eq_flatMap webItem obj p hp with ⟨content, item, _, _, hpi⟩
    have hne := webItem_payload_ne _ _ _ hpi
    simp [payloadOk, hne]
  · -- fetch events
    rcases extract_eq_flatMap fetchItem obj p hp with ⟨content, item, _, _, hpi⟩
    have hne := fetchItem_payload_ne _ _ _ hpi
    simp [payloadOk, hne]
  · -- file events
    rcases extract_eq_flatMap fileItem obj p hp with ⟨content, item, _, _, hpi⟩
    have hfl := fileItem_payload_label _ _ _ hpi
    have hmem := hfl.2
    simp only [List.mem_cons, List.not_mem_nil, or_false] at hmem
    have hlbl : p.2.1 ≠ "thinking" := by
      rcases hmem with h | h | h <;> rw [h] <;> decide
    simp [payloadOk, hfl.1, hlbl]

/-- `contains` is `true` on lists holding the element. -/
theorem contains_eq_true_of_mem {α : Type} [BEq α] [LawfulBEq α]
    {a : α} {l : List α} (h : a ∈ l) : l.contains a = true := by
  simp [List.contains, List.elem_eq_mem, h]

/-- `contains` only depends on the membership set. -/
theorem contains_congr {m1 m2 : List String} (h : ∀ x, x ∈ m1 ↔ x ∈ m2)
    (a : String) : m1.contains a = m2.contains a := by
  by_cases ha : a ∈ m1
  · rw [contains_eq_true_of_mem ha, contains_eq_true_of_mem ((h a).mp ha)]
  · have ha2 : a ∉ m2 := fun hx => ha ((h a).mpr hx)
    rw [contains_eq_false_of_not_mem ha, contains_eq_false_of_not_mem ha2]

/-- Rule activation only depends on the membership set of the tokens. -/
theorem modeActive_congr {m1 m2 : List String} (h : ∀ x, x ∈ m1 ↔ x ∈ m2)
    (s : String) : modeActive m1 s = modeActive m2 s := by
  unfold modeActive
  rw [contains_congr h s, contains_congr h "all"]

/-- The sorted, deduplicated unknown-token list only depends on the
membership set of the tokens. -/
theorem unknownModes_congr {m1 m2 : List String} (h : ∀ x, x ∈ m1 ↔ x ∈ m2) :
    unknownModes m1 = unknownModes m2 := by
  unfold unknownModes
  have hmem : ∀ x, x ∈ (m1.filter (fun t => !validModes.contains t)).dedup ↔
      x ∈ (m2.filter (fun t => !validModes.contains t)).dedup := by
    intro x
    simp only [List.mem_dedup, List.mem_filter]
    exact and_congr_left fun _ => h x
  have hperm : List.Perm (m1.filter (fun t => !validModes.contains t)).dedup
      (m2.filter (fun t => !validModes.contains t)).dedup :=
    (List.perm_ext_iff_of_nodup (List.nodup_dedup _) (List.nodup_dedup _)).mpr hmem
  exact List.eq_of_perm_of_sorted
    (((List.perm_insertionSort _ _).trans hperm).trans
      (List.perm_insertionSort _ _).symm)
    (List.sorted_insertionSort _ _) (List.sorted_insertionSort _ _)

/-- Per-object events are determined by the five rule activations. -/
theorem eventsOfObj_congr5 {m1 m2 : List String}
    (h1 : modeActive m1 "exec" = modeActive m2 "exec")
    (h2 : modeActive m1 "thinking" = modeActive m2 "thinking")
    (h3 : modeActive m1 "web" = modeActive m2 "web")
    (h4 : modeActive m1 "fetch" = modeActive m2 "fetch")
    (h5 : modeActive m1 "file" = modeActive m2 "file") :
    ∀ (k : Bool) (obj : Json), eventsOfObj m1 k obj = eventsOfObj m2 k obj := by
  intro k obj
  unfold eventsOfObj
  rw [h1, h2, h3, h4, h5]

/-- A line's contribution is determined by the per-object events. -/
theorem processLine_congr {m1 m2 : List String}
    (hev : ∀ (k : Bool) (obj : Json), eventsOfObj m1 k obj = eventsOfObj m2 k obj)
    (es k : Bool) (parse : String → Except String Json) (src raw : String) :
    processLine m1 es k parse src raw = processLine m2 es k parse src raw := by
  unfold processLine
  cases h : pyStrip raw == "" with
  | true => simp [h]
  | false =>
    simp only [h]
    cases hp : parse (pyStrip raw) with
    | error e => simp
    | ok obj =>
      cases hd : obj.isDict with
      | true => simp [hd, hev]
      | false => simp [hd]

/-- A whole run is determined by the unknown-token list and the
per-object events of the mode tokens. -/
theorem runMain_congr {m1 m2 : List String}
    (hu : unknownModes m1 = unknownModes m2)
    (hev : ∀ (k : Bool) (obj : Json), eventsOfObj m1 k obj = eventsOfObj m2 k obj)
    (es k : Bool) (n : Int) (parse : String → Except String Json)
    (lines : List (String × String)) :
    runMain m1 es k n parse lines = runMain m2 es k n parse lines := by
  have hpl : (fun (acc : List Event × List String) (sl : String × String) =>
      let r := processLine m1 es k parse sl.1 sl.2
      (acc.1 ++ r.1, acc.2 ++ r.2)) =
      (fun (acc : List Event × List String) (sl : String × String) =>
      let r := processLine m2 es k parse sl.1 sl.2
      (acc.1 ++ r.1, acc.2 ++ r.2)) := by
    funext acc sl
    rw [processLine_congr hev]
  unfold runMain collectAll
  rw [hu, hpl]

/-- A whole run is determined by the membership set of the mode tokens. -/
theorem runMain_modes_ext {m1 m2 : List String} (h : ∀ x, x ∈ m1 ↔ x ∈ m2)
    (es k : Bool) (n : Int) (parse : String → Except String Json)
    (lines : List (String × String)) :
    runMain m1 es k n parse lines = runMain m2 es k n parse lines :=
  runMain_congr (unknownModes_congr h)
    (eventsOfObj_congr5 (modeActive_congr h "exec")
      (modeActive_congr h "thinking") (modeActive_congr h "web")
      (modeActive_congr h "fetch") (modeActive_congr h "file"))
    es k n parse lines

/-- `--last N` slicing, written as "keep the final N entries". -/
theorem keepLast_eq_drop (n : Int) (l : List Event) :
    keepLast n l = if 0 < n then l.drop (l.length - n.toNat) else l := by
  by_cases h : 0 < n
  · rw [keepLast, if_pos h, if_pos h, ← List.rtake_eq_reverse_take_reverse]
    rfl
  · rw [keepLast, if_neg h, if_neg h]

/-- The events a line contributes, phrased through `lineObj`. -/
theorem processLine_fst (tokens : List String) (es k : Bool)
    (parse : String → Except String Json) (src raw : String) :
    (processLine tokens es k parse src raw).1 =
      (match lineObj parse raw with
       | some obj => eventsOfObj tokens k obj
       | none => []) := by
  unfold processLine lineObj
  cases h : pyStrip raw == "" with
  | true => simp [h]
  | false =>
    simp only [h]
    cases hp : parse (pyStrip raw) with
    | error e => simp
    | ok obj =>
      cases hd : obj.isDict with
      | true => simp [hd]
      | false => simp [hd]

/-- The collected event list is the spec-side flatMap. -/
theorem collect_fst_eq (tokens : List String) (es k : Bool)
    (parse : String → Except String Json) (lines : List (String × String)) :
    lines.flatMap (fun sl => (processLine tokens es k parse sl.1 sl.2).1) =
      collectedEvents tokens k parse lines := by
  unfold collectedEvents
  exact congrArg lines.flatMap (funext fun sl => processLine_fst tokens es k parse sl.1 sl.2)

/-- On valid modes, the run's records are the ordered collected events,
truncated once at the end. -/
theorem runRecords_eq (tokens : List String) (es k : Bool) (n : Int)
    (parse : String → Except String Json) (lines : List (String × String))
    (h : unknownModes tokens = []) :
    runRecords tokens es k n parse lines =
      keepLast n (collectedEvents tokens k parse lines) := by
  unfold runRecords runMain
  rw [if_pos (by simp [h])]
  dsimp only
  rw [collectAll_eq, keepLast_eq_drop]
  dsimp only
  rw [collect_fst_eq]

/-- A falsy selected value always produces the sentinel payload. -/
theorem pathToPayload_falsy (v : Json) (h : v.truthy = false) :
    pathToPayload v = "UNKNOWN_PATH" := by
  cases v <;> simp_all [pathToPayload, Json.truthy]
  rename_i s
  subst h
  simp [pyStrip]

/-- A left-associated Python `or` chain feeds the payload computation
with the first truthy value (or the final value when none is truthy). -/
theorem pathToPayload_chain : ∀ (vs : List Json) (v : Json),
    pathToPayload (vs.foldl pyOr v) =
      (match (v :: vs).find? Json.truthy with
       | some w => pathToPayload w
       | none => "UNKNOWN_PATH") := by
  intro vs
  induction vs with
  | nil =>
    intro v
    cases hv : v.truthy <;> simp [List.find?, hv]
    exact pathToPayload_falsy v hv
  | cons w vs ih =>
    intro v
    cases hv : v.truthy with
    | true =>
      have hor : pyOr v w = v := by simp [pyOr, hv]
      simp only [List.foldl_cons, hor, ih v, List.find?, hv]
    | false =>
      have hor : pyOr v w = w := by simp [pyOr, hv]
      simp only [List.foldl_cons, hor, ih w, List.find?, hv]

/-- The spec-side first-truthy selection equals a `find?` over the
looked-up values. -/
theorem findSome?_truthy_eq (g : String → Json) : ∀ keys : List String,
    keys.findSome? (fun k => let v := g k; if v.truthy then some v else none) =
      (keys.map g).find? Json.truthy := by
  intro keys
  induction keys with
  | nil => simp
  | cons k keys ih =>
    cases hv : (g k).truthy <;>
      simp [List.findSome?_cons, List.find?, hv, ih]

/-- The amended file payload agrees with the source's `or`-chain
followed by the `isinstance`/strip check. -/
theorem filePayloadAmended_eq (args : List (String × Json)) :
    pathToPayload (pyOr (pyOr (pyOr (pyOr (dictGet args "path") (dictGet args "file_path"))
        (dictGet args "filepath")) (dictGet args "filename")) (dictGet args "target")) =
      filePayloadAmended args := by
  have hchain := pathToPayload_chain
    [dictGet args "file_path", dictGet args "filepath", dictGet args "filename",
      dictGet args "target"] (dictGet args "path")
  have hfind := findSome?_truthy_eq (fun k => dictGet args k) fileKeys
  unfold filePayloadAmended
  rw [hfind]
  simp only [fileKeys, List.map] at hchain ⊢
  rw [show pyOr (pyOr (pyOr (pyOr (dictGet args "path") (dictGet args "file_path"))
        (dictGet args "filepath")) (dictGet args "filename")) (dictGet args "target") =
      [dictGet args "file_path", dictGet args "filepath", dictGet args "filename",
        dictGet args "target"].foldl pyOr (dictGet args "path") from rfl, hchain]
  cases hf : ([dictGet args "path", dictGet args "file_path", dictGet args "filepath",
      dictGet args "filename", dictGet args "target"].find? Json.truthy) with
  | none => rfl
  | some w => cases w <;> rfl

/-- The exec loop body agrees with the spec-worded per-item rule. -/
theorem execItem_eq (ts : String) (item : Json) :
    execItem ts item =
      (if item.isDict && strEq (item.pyGet "type") "toolCall"
          && strEq (item.pyGet "name") "exec" then
        match safe_get item ["arguments", "command"] with
        | Json.str c => if pyStrip c != "" then some (ts, pyStrip c) else none
        | _ => none
      else none).toList := by
  cases item with
  | obj kvs =>
    simp only [execItem, Json.isDict, Json.pyGet, Bool.true_and]
    by_cases ht : strEq (dictGet kvs "type") "toolCall" <;>
      by_cases hn : strEq (dictGet kvs "name") "exec" <;>
        simp [ht, hn]
    split
    · split <;> simp
    · simp
  | null => simp [execItem, Json.isDict]
  | bool b => simp [execItem, Json.isDict]
  | num n => simp [execItem, Json.isDict]
  | str s => simp [execItem, Json.isDict]
  | arr xs => simp [execItem, Json.isDict]

/-- The file loop body agrees with the amended per-item rule. -/
theorem fileItem_eq (ts : String) (item : Json) :
    fileItem ts item =
      (match item with
       | Json.obj kvs =>
         if strEq (dictGet kvs "type") "toolCall" then
           match dictGet kvs "name" with
           | Json.str a =>
             if ["read", "write", "edit"].contains a then
               let args : List (String × Json) :=
                 match dictGet kvs "arguments" with
                 | Json.obj akvs => akvs
                 | _ => []
               some (ts, a, filePayloadAmended args)
             else none
           | _ => none
         else none
       | _ => none).toList := by
  cases item with
  | obj kvs =>
    simp only [fileItem]
    by_cases ht : strEq (dictGet kvs "type") "toolCall" <;> simp [ht]
    cases hname : dictGet kvs "name" with
    | str a =>
      by_cases hmem : a ∈ (["read", "write", "edit"] : List String)
      · rcases (show a = "read" ∨ a = "write" ∨ a = "edit" by simpa using hmem) with
          rfl | rfl | rfl <;>
          (simp; rw [filePayloadAmended_eq])
      · have hne1 : a ≠ "read" := by intro h; exact hmem (by simp [h])
        have hne2 : a ≠ "write" := by intro h; exact hmem (by simp [h])
        have hne3 : a ≠ "edit" := by intro h; exact hmem (by simp [h])
        simp [hne1, hne2, hne3]
    | null => rfl
    | bool b => rfl
    | num n => rfl
    | arr xs => rfl
    | obj okvs => rfl
  | null => rfl
  | bool b => rfl
  | num n => rfl
  | str s => rfl
  | arr xs => rfl

/-- A non-dict `arguments` value makes the two-step `_safe_get` chain
return `None`. -/
theorem safe_get_args_null (kvs : List (String × Json)) (key : String)
    (h : (dictGet kvs "arguments").isDict = false) :
    safe_get (Json.obj kvs) ["arguments", key] = Json.null := by
  cases hf : kvs.find? (fun p => p.1 == "arguments") with
  | none => simp [safe_get, hf]
  | some p =>
    have hval : dictGet kvs "arguments" = p.2 := by simp [dictGet, hf]
    rw [hval] at h
    simp only [safe_get, hf]
    cases hp2 : p.2 with
    | obj akvs =>
      rw [hp2] at h
      simp [Json.isDict] at h
    | null => rfl
    | bool b => rfl
    | num n => rfl
    | str s => rfl
    | arr xs => rfl

/-- A non-blank line that fails to parse contributes no events and,
under the default error configuration, exactly one warning. -/
theorem processLine_parse_error (tokens : List String) (es keep : Bool)
    (parse : String → Except String Json) (src raw e : String)
    (hne : pyStrip raw ≠ "") (hp : parse (pyStrip raw) = Except.error e) :
    processLine tokens es keep parse src raw =
      ([], if es then ["[warn] " ++ src ++ ": invalid JSON: " ++ e] else []) := by
  unfold processLine
  rw [if_neg (by simpa using hne), hp]

/-- A line parsing to a non-dict value contributes nothing and reports
nothing. -/
theorem processLine_nondict (tokens : List String) (es keep : Bool)
    (parse : String → Except String Json) (src raw : String) (v : Json)
    (hp : parse (pyStrip raw) = Except.ok v) (hd : v.isDict = false) :
    processLine tokens es keep parse src raw = ([], []) := by
  unfold processLine
  by_cases hb : (pyStrip raw == "") = true
  · rw [if_pos hb]
  · rw [if_neg hb, hp]
    simp [hd]

/-! ### Claim theorems -/

/-- C1 (counterexample): the file rule's payload is NOT always the first
present and non-empty argument field, trimmed.  For
`arguments = {"path": "   ", "file_path": "a.txt"}` the first present
and non-empty field is `"path" = "   "`, so the claim's payload is its
trim `""` (or, reading "non-empty" as non-empty after trimming,
`"a.txt"`), while the code emits the sentinel `"UNKNOWN_PATH"`: the
truthy `or`-chain stops at `"   "` and the strip check then fails
without falling through to `file_path`. -/
theorem C1_counterexample :
    extract_file_events (mkMessage [toolCallItem "read"
      [("path", Json.str "   "), ("file_path", Json.str "a.txt")]]) =
      [("T", "read", "UNKNOWN_PATH")] ∧
    filePayloadClaim [("path", Json.str "   "), ("file_path", Json.str "a.txt")] = "" ∧
    ("UNKNOWN_PATH" : String) ≠ "" ∧ ("UNKNOWN_PATH" : String) ≠ "a.txt" :=
  ⟨by decide, by decide, by decide, by decide⟩

/-- C1 (amended): for every record of type `"message"` with a
`message.content` array, each content item that is an object with
`type == "toolCall"` and a string `name` in {read, write, edit} yields
exactly one event labeled with that action; the payload selects the
first field among `path`, `file_path`, `filepath`, `filename`, `target`
(in that priority order) whose value is truthy, and is that value
trimmed when it is a string with non-whitespace content, the sentinel
`"UNKNOWN_PATH"` otherwise.  In particular
`{"file_path": "a.txt", "filename": "b.txt"}` resolves to `"a.txt"` and
`{}` resolves to `"UNKNOWN_PATH"`. -/
theorem C1_file_rule :
    (∀ obj : Json, extract_file_events obj = fileRuleAmended obj) ∧
    extract_file_events (mkMessage [toolCallItem "read"
      [("file_path", Json.str "a.txt"), ("filename", Json.str "b.txt")]]) =
      [("T", "read", "a.txt")] ∧
    extract_file_events (mkMessage [toolCallItem "read" []]) =
      [("T", "read", "UNKNOWN_PATH")] := by
  refine ⟨?_, by decide, by decide⟩
  intro obj
  unfold extract_file_events fileRuleAmended
  by_cases hg : strEq (obj.pyGet "type") "message"
  · rw [if_neg (by simp [hg]), if_pos hg]
    dsimp only
    cases hc : message_content obj with
    | none => rfl
    | some content =>
      dsimp only
      rw [foldl_append_eq_flatMap, List.nil_append]
      exact flatMap_eq_filterMap _ _ (fun a => fileItem_eq (get_timestamp obj) a) content
  · rw [if_pos (by simp [hg]), if_neg hg]

/-- C2: thinking events are emitted with the trimmed thinking text;
without `--keep-newlines` the text is normalized by converting CRLF and
lone CR to LF and then replacing each LF with the two-character sequence
backslash-`n`, so the payload contains no newline character (one
physical output line); with `--keep-newlines` the trimmed text is
emitted with its real newlines and can span several physical lines. -/
theorem C2_thinking_newlines :
    (∀ obj : Json,
      eventsOfObj ["thinking"] false obj =
        (extract_thinking obj).map
          (fun p => ⟨p.1, "thinking", escape_newlines p.2⟩) ∧
      eventsOfObj ["thinking"] true obj =
        (extract_thinking obj).map (fun p => ⟨p.1, "thinking", p.2⟩) ∧
      (eventsOfObj ["thinking"] false obj).all
        (fun e => !(e.payload.data.contains '\n')) = true) ∧
    escape_newlines "line1\nline2" = "line1\\nline2" ∧
    eventsOfObj ["thinking"] true (objThinking "line1\nline2") =
      [⟨"T", "thinking", "line1\nline2"⟩] ∧
    (("line1\nline2" : String).data.contains '\n') = true := by
  have hexec : modeActive ["thinking"] "exec" = false := by decide
  have hth : modeActive ["thinking"] "thinking" = true := by decide
  have hweb : modeActive ["thinking"] "web" = false := by decide
  have hfetch : modeActive ["thinking"] "fetch" = false := by decide
  have hfile : modeActive ["thinking"] "file" = false := by decide
  have hred : ∀ obj : Json, eventsOfObj ["thinking"] false obj =
      (extract_thinking obj).map (fun p => ⟨p.1, "thinking", escape_newlines p.2⟩) := by
    intro obj
    simp [eventsOfObj, hexec, hth, hweb, hfetch, hfile]
  refine ⟨fun obj => ⟨hred obj, ?_, ?_⟩, by decide, by decide, by decide⟩
  · simp [eventsOfObj, hexec, hth, hweb, hfetch, hfile]
  · rw [List.all_eq_true]
    intro e he
    rw [hred obj] at he
    rcases List.mem_map.mp he with ⟨p, hp, rfl⟩
    have hcf := contains_eq_false_of_not_mem (escape_newlines_no_newline p.2)
    dsimp only
    rw [hcf]
    decide

/-- C3: the exec rule fires only on records of type `"message"` with a
`message.content` array; each content item that is an object with
`type == "toolCall"` and `name == "exec"` yields one `exec` event with
the trimmed `arguments.command` as payload, if and only if that field is
a string that is non-empty after trimming; a whitespace-only command
yields no event. -/
theorem C3_exec_rule :
    (∀ obj : Json, extract_execs obj = execRuleSpec obj) ∧
    extract_execs (objExec "   ") = [] ∧
    extract_execs (objExec " ls -la ") = [("T", "ls -la")] := by
  refine ⟨?_, by decide, by decide⟩
  intro obj
  unfold extract_execs execRuleSpec
  by_cases hg : strEq (obj.pyGet "type") "message"
  · rw [if_neg (by simp [hg]), if_pos hg]
    dsimp only
    cases hc : message_content obj with
    | none => rfl
    | some content =>
      dsimp only
      rw [foldl_append_eq_flatMap, List.nil_append]
      exact flatMap_eq_filterMap _ _ (fun a => execItem_eq (get_timestamp obj) a) content
  · rw [if_pos (by simp [hg]), if_neg hg]

/-- C4 (counterexample): payloads are NOT always single physical lines
when newline preservation is off.  Non-thinking payloads are used
verbatim after trimming, so an exec command with an embedded newline
(`"ls\npwd"`) is printed with a real newline even without
`--keep-newlines`. -/
theorem C4_counterexample :
    runRecords ["all"] true false 0 demoParse [("f", "NL")] =
      [⟨"T", "exec", "ls\npwd"⟩] ∧
    (("ls\npwd" : String).data.contains '\n') = true ∧
    (runRecords ["all"] true false 0 demoParse [("f", "NL")]).all
      (fun e => !(e.payload.data.contains '\n')) = false :=
  ⟨by decide, by decide, by decide⟩

/-- C4 (amended): for every run, every emitted record has a non-empty
payload, and every thinking payload is a single physical line (no
newline character) whenever newline preservation is off; other payloads
are the trimmed source fields verbatim and are single-line only when
the source field has no embedded newline. -/
theorem C4_payload_invariant (tokens : List String) (es keep : Bool) (n : Int)
    (parse : String → Except String Json) (lines : List (String × String)) :
    (runRecords tokens es keep n parse lines).all (payloadOk keep) = true := by
  by_cases hu : unknownModes tokens = []
  · rw [runRecords_eq tokens es keep n parse lines hu, keepLast_eq_drop]
    have hall : (collectedEvents tokens keep parse lines).all (payloadOk keep) = true := by
      rw [List.all_eq_true]
      intro e he
      rcases List.mem_flatMap.mp he with ⟨sl, _, he2⟩
      rcases hobj : lineObj parse sl.2 with _ | obj <;> rw [hobj] at he2
      · simp at he2
      · exact List.all_eq_true.mp (eventsOfObj_payloadOk tokens keep obj) e he2
    split
    · rw [List.all_eq_true] at hall ⊢
      intro e he
      exact hall e (List.drop_subset _ _ he)
    · exact hall
  · unfold runRecords runMain
    rw [if_neg (by simpa using hu)]
    rfl

/-- C5 (counterexample): the timestamp is NOT always the string in the
top-level `timestamp` field.  For a record with `timestamp: ""` and
`message.timestamp: "X"`, the claim's reading gives the present
top-level string `""`, but the code treats the falsy empty string as
missing and falls through to the nested `"X"`. -/
theorem C5_counterexample :
    timestampClaim (Json.obj [("timestamp", Json.str ""),
      ("message", Json.obj [("timestamp", Json.str "X")])]) = "" ∧
    get_timestamp (Json.obj [("timestamp", Json.str ""),
      ("message", Json.obj [("timestamp", Json.str "X")])]) = "X" ∧
    ("" : String) ≠ "X" :=
  ⟨by decide, by decide, by decide⟩

/-- C5 (amended): the event timestamp is the top-level `timestamp` value
when it is truthy (for strings: non-empty); otherwise the nested
`message.timestamp`, stringified, when it is present, non-null and its
string form is non-empty; otherwise the sentinel `"UNKNOWN_TIME"`. -/
theorem C5_timestamp (obj : Json) : get_timestamp obj = timestampAmended obj := by
  unfold get_timestamp timestampAmended
  have htr : ∀ s : String, (Json.str s).truthy = (s != "") := fun s => rfl
  have hstr : ∀ s : String, pyStr (Json.str s) = s := fun s => rfl
  by_cases h1 : (obj.pyGet "timestamp").truthy
  · simp [h1]
  · by_cases h2 : (safe_get obj ["message", "timestamp"]).isNull
    · simp [h1, h2]
    · simp only [h1, h2, htr, hstr, Bool.false_eq_true, if_false, Bool.not_false,
        Bool.true_and, Bool.not_eq_true]
      simp [h1, h2, htr, hstr]

/-- C6: the printed records are all extracted events in encounter order
of input lines (with the fixed per-line rule order baked into
`eventsOfObj`), truncated exactly once at the end to the final N entries
when `--last N` is positive, and kept whole otherwise; the mapping is a
pure function of the input.  In particular `--last 2` on events e1..e5
prints exactly [e4, e5] and `--last 0` prints all five. -/
theorem C6_ordering_truncation :
    (∀ (tokens : List String) (es keep : Bool) (n : Int)
      (parse : String → Except String Json) (lines : List (String × String)),
      unknownModes tokens = [] →
      runRecords tokens es keep n parse lines =
        keepLast n (collectedEvents tokens keep parse lines)) ∧
    runRecords ["exec"] true false 2 demoParse demoLines5 =
      [⟨"T", "exec", "c4"⟩, ⟨"T", "exec", "c5"⟩] ∧
    runRecords ["exec"] true false 0 demoParse demoLines5 = demoEvents5 ∧
    keepLast 2 demoEvents5 = [⟨"T", "exec", "c4"⟩, ⟨"T", "exec", "c5"⟩] :=
  ⟨runRecords_eq, by decide, by decide, by decide⟩

/-- C6 witness: the general ordering/truncation equation applied to the
concrete five-event demo input with `--last 2`. -/
theorem C6_witness :
    unknownModes ["exec"] = [] ∧
    runRecords ["exec"] true false 2 demoParse demoLines5 =
      keepLast 2 (collectedEvents ["exec"] false demoParse demoLines5) :=
  ⟨by decide,
    C6_ordering_truncation.1 ["exec"] true false 2 demoParse demoLines5 (by decide)⟩

/-- C7 (counterexample): a wrong-typed `arguments` does NOT always make
the rule a no-match.  With `arguments: 5` on a `read` toolCall the file
rule still emits one event, carrying the sentinel payload, instead of
skipping the item. -/
theorem C7_counterexample :
    extract_file_events (mkMessage [Json.obj [("type", Json.str "toolCall"),
      ("name", Json.str "read"), ("arguments", Json.num 5)]]) =
      [("T", "read", "UNKNOWN_PATH")] ∧
    extract_file_events (mkMessage [Json.obj [("type", Json.str "toolCall"),
      ("name", Json.str "read"), ("arguments", Json.num 5)]]) ≠ [] :=
  ⟨by decide, by decide⟩

/-- C7 (amended): field lookup is total and never errors.  A missing
intermediate key or wrong-typed value makes `_safe_get` return `None`;
a missing or non-array `message.content` makes every extractor return
no events; a non-dict content item is skipped by every rule; a non-dict
`arguments` yields no event for the exec, web and fetch rules, while
the file rule treats it as an empty dict and still emits one event with
the sentinel payload `UNKNOWN_PATH`. -/
theorem C7_defensive_lookup :
    (∀ (v : Json) (k : String) (ks : List String), v.isDict = false →
      safe_get v (k :: ks) = Json.null) ∧
    (∀ obj : Json, message_content obj = none →
      extract_execs obj = [] ∧ extract_thinking obj = [] ∧
      extract_web_searches obj = [] ∧ extract_web_fetches obj = [] ∧
      extract_file_events obj = []) ∧
    (∀ (ts : String) (item : Json), item.isDict = false →
      execItem ts item = [] ∧ thinkingItem ts item = [] ∧ webItem ts item = [] ∧
      fetchItem ts item = [] ∧ fileItem ts item = []) ∧
    (∀ (ts : String) (kvs : List (String × Json)),
      (dictGet kvs "arguments").isDict = false →
      execItem ts (Json.obj kvs) = [] ∧ webItem ts (Json.obj kvs) = [] ∧
      fetchItem ts (Json.obj kvs) = [] ∧
      (strEq (dictGet kvs "type") "toolCall" = true →
        ∀ a : String, dictGet kvs "name" = Json.str a →
          a ∈ (["read", "write", "edit"] : List String) →
          fileItem ts (Json.obj kvs) = [(ts, a, "UNKNOWN_PATH")])) := by
  refine ⟨?_, ?_, ?_, ?_⟩
  · intro v k ks hv
    cases v with
    | obj kvs => simp [Json.isDict] at hv
    | null => rfl
    | bool b => rfl
    | num n => rfl
    | str s => rfl
    | arr xs => rfl
  · intro obj h
    refine ⟨?_, ?_, ?_, ?_, ?_⟩
    · unfold extract_execs
      split
      · rfl
      · dsimp only
        rw [h]
    · unfold extract_thinking
      split
      · rfl
      · dsimp only
        rw [h]
    · unfold extract_web_searches
      split
      · rfl
      · dsimp only
        rw [h]
    · unfold extract_web_fetches
      split
      · rfl
      · dsimp only
        rw [h]
    · unfold extract_file_events
      split
      · rfl
      · dsimp only
        rw [h]
  · intro ts item hv
    cases item with
    | obj kvs => simp [Json.isDict] at hv
    | null => exact ⟨rfl, rfl, rfl, rfl, rfl⟩
    | bool b => exact ⟨rfl, rfl, rfl, rfl, rfl⟩
    | num n => exact ⟨rfl, rfl, rfl, rfl, rfl⟩
    | str s => exact ⟨rfl, rfl, rfl, rfl, rfl⟩
    | arr xs => exact ⟨rfl, rfl, rfl, rfl, rfl⟩
  · intro ts kvs h
    have hsg : ∀ key, safe_get (Json.obj kvs) ["arguments", key] = Json.null :=
      fun key => safe_get_args_null kvs key h
    have hargs : (match dictGet kvs "arguments" with
        | Json.obj akvs => akvs
        | _ => []) = ([] : List (String × Json)) := by
      cases hv : dictGet kvs "arguments" with
      | obj akvs =>
        rw [hv] at h
        simp [Json.isDict] at h
      | null => rfl
      | bool b => rfl
      | num n => rfl
      | str s => rfl
      | arr xs => rfl
    refine ⟨?_, ?_, ?_, ?_⟩
    · simp only [execItem]
      split
      · rfl
      · split
        · rfl
        · rw [hsg "command"]
    · simp only [webItem]
      split
      · rfl
      · split
        · rfl
        · rw [hsg "query"]
    · simp only [fetchItem]
      split
      · rfl
      · split
        · rfl
        · rw [hsg "url"]
    · intro htype a hname hmem
      simp only [fileItem]
      rw [if_neg (by simp [htype]), hname]
      dsimp only
      rw [if_neg (by rw [contains_eq_true_of_mem hmem]; simp), hargs]
      rfl

/-- C7 witness: the amended defensive-lookup facts at concrete inputs —
a scalar instead of a dict, a scalar `message`, a scalar content item,
and a `read` toolCall whose `arguments` is the number 5. -/
theorem C7_witness :
    safe_get (Json.num 5) ["message", "content"] = Json.null ∧
    extract_execs (Json.obj [("type", Json.str "message"),
      ("message", Json.str "nope")]) = [] ∧
    execItem "T" (Json.str "text") = [] ∧
    fileItem "T" (Json.obj [("type", Json.str "toolCall"), ("name", Json.str "read"),
      ("arguments", Json.num 5)]) = [("T", "read", "UNKNOWN_PATH")] := by
  refine ⟨?_, ?_, ?_, ?_⟩
  · exact C7_defensive_lookup.1 (Json.num 5) "message" ["content"] (by decide)
  · exact (C7_defensive_lookup.2.1 (Json.obj [("type", Json.str "message"),
      ("message", Json.str "nope")]) rfl).1
  · exact (C7_defensive_lookup.2.2.1 "T" (Json.str "text") rfl).1
  · exact (C7_defensive_lookup.2.2.2 "T"
      [("type", Json.str "toolCall"), ("name", Json.str "read"),
        ("arguments", Json.num 5)] rfl).2.2.2
      rfl "read" rfl (by decide)

/-- C8: a line that fails to parse as JSON is skipped and processing
continues: it contributes no events, produces one `[warn]` message on
the error channel under the default configuration and nothing under the
suppress configuration; a line parsing to a non-object value is skipped
without any report; surrounding valid lines contribute exactly their
events; and a run over any input with valid modes always completes
normally (exit 0). -/
theorem C8_malformed_lines :
    (∀ (tokens : List String) (es keep : Bool)
      (parse : String → Except String Json) (src raw e : String),
      pyStrip raw ≠ "" → parse (pyStrip raw) = Except.error e →
      processLine tokens es keep parse src raw =
        ([], if es then ["[warn] " ++ src ++ ": invalid JSON: " ++ e] else [])) ∧
    (∀ (tokens : List String) (es keep : Bool)
      (parse : String → Except String Json) (src raw : String) (v : Json),
      parse (pyStrip raw) = Except.ok v → v.isDict = false →
      processLine tokens es keep parse src raw = ([], [])) ∧
    (∀ (tokens : List String) (es keep : Bool)
      (parse : String → Except String Json)
      (pre post : List (String × String)) (src raw e : String),
      pyStrip raw ≠ "" → parse (pyStrip raw) = Except.error e →
      (collectAll tokens es keep parse (pre ++ (src, raw) :: post)).1 =
        (collectAll tokens es keep parse (pre ++ post)).1 ∧
      (collectAll tokens es keep parse (pre ++ (src, raw) :: post)).2 =
        (collectAll tokens es keep parse pre).2 ++
          (if es then ["[warn] " ++ src ++ ": invalid JSON: " ++ e] else []) ++
          (collectAll tokens es keep parse post).2) ∧
    (∀ (tokens : List String) (es keep : Bool) (n : Int)
      (parse : String → Except String Json) (lines : List (String × String)),
      unknownModes tokens = [] →
      ∃ records warnings,
        runMain tokens es keep n parse lines = RunResult.ok records warnings) := by
  refine ⟨processLine_parse_error, processLine_nondict, ?_, ?_⟩
  · intro tokens es keep parse pre post src raw e hne hp
    have hmid := processLine_parse_error tokens es keep parse src raw e hne hp
    constructor
    · simp only [collectAll_eq]
      rw [List.flatMap_append, List.flatMap_append, List.flatMap_cons]
      dsimp only
      rw [hmid]
      simp
    · simp only [collectAll_eq]
      rw [List.flatMap_append, List.flatMap_cons]
      dsimp only
      rw [hmid]
      simp
  · intro tokens es keep n parse lines hu
    exact ⟨_, _, by unfold runMain; rw [if_pos (by simp [hu])]⟩

/-- C8 witness: the malformed-line behavior at a concrete line `nope`
with the default error configuration. -/
theorem C8_witness :
    processLine ["exec"] true false demoParse "f" "nope" =
      ([], ["[warn] f: invalid JSON: Expecting value: line 1 column 1 (char 0)"]) := by
  have h := C8_malformed_lines.1 ["exec"] true false demoParse "f" "nope"
    "Expecting value: line 1 column 1 (char 0)" (by decide) rfl
  simpa using h

/-- C9: any mode token outside {exec, thinking, web, fetch, file, all}
makes the run exit with code 2 and an `[error]` message listing exactly
the invalid tokens (sorted, deduplicated), producing no output records,
regardless of the remaining tokens or the input. -/
theorem C9_unknown_mode_tokens :
    (∀ (tokens : List String) (es keep : Bool) (n : Int)
      (parse : String → Except String Json) (lines : List (String × String)),
      unknownModes tokens ≠ [] →
      runMain tokens es keep n parse lines =
        RunResult.usageError 2 (unknownMsg (unknownModes tokens)) ∧
      runRecords tokens es keep n parse lines = []) ∧
    (∀ (tokens : List String) (t : String),
      t ∈ unknownModes tokens ↔ t ∈ tokens ∧ t ∉ validModes) := by
  constructor
  · intro tokens es keep n parse lines hu
    have hcond : ¬((unknownModes tokens == []) = true) := by simpa using hu
    refine ⟨?_, ?_⟩
    · unfold runMain
      rw [if_neg hcond]
    · unfold runRecords runMain
      rw [if_neg hcond]
  · intro tokens t
    unfold unknownModes
    rw [List.mem_insertionSort, List.mem_dedup, List.mem_filter]
    simp

/-- C9 witness: the invalid token `foo` alongside the valid `exec`
yields the usage error and no records, on real input lines. -/
theorem C9_witness :
    runMain ["exec", "foo"] true false 0 demoParse demoLines5 =
      RunResult.usageError 2 (unknownMsg (unknownModes ["exec", "foo"])) ∧
    runRecords ["exec", "foo"] true false 0 demoParse demoLines5 = [] :=
  C9_unknown_mode_tokens.1 ["exec", "foo"] true false 0 demoParse demoLines5 (by decide)

/-- C10: the modes act as a set — any two token lists with the same
members produce identical runs (so repeating a token changes nothing),
and the token `all` (with any other tokens alongside) behaves exactly
like listing the five individual modes. -/
theorem C10_mode_set :
    (∀ (m1 m2 : List String) (es keep : Bool) (n : Int)
      (parse : String → Except String Json) (lines : List (String × String)),
      (∀ x, x ∈ m1 ↔ x ∈ m2) →
      runMain m1 es keep n parse lines = runMain m2 es keep n parse lines) ∧
    (∀ (ts : List String) (es keep : Bool) (n : Int)
      (parse : String → Except String Json) (lines : List (String × String)),
      runMain ("all" :: ts) es keep n parse lines =
        runMain (["exec", "thinking", "web", "fetch", "file"] ++ ts) es keep n parse
          lines) := by
  constructor
  · intro m1 m2 es keep n parse lines h
    exact runMain_modes_ext h es keep n parse lines
  · intro ts es keep n parse lines
    have hu : unknownModes ("all" :: ts) =
        unknownModes (["exec", "thinking", "web", "fetch", "file"] ++ ts) := by
      simp [unknownModes, validModes]
    have h1 : modeActive ("all" :: ts) "exec" =
        modeActive (["exec", "thinking", "web", "fetch", "file"] ++ ts) "exec" := by
      simp [modeActive]
    have h2 : modeActive ("all" :: ts) "thinking" =
        modeActive (["exec", "thinking", "web", "fetch", "file"] ++ ts) "thinking" := by
      simp [modeActive]
    have h3 : modeActive ("all" :: ts) "web" =
        modeActive (["exec", "thinking", "web", "fetch", "file"] ++ ts) "web" := by
      simp [modeActive]
    have h4 : modeActive ("all" :: ts) "fetch" =
        modeActive (["exec", "thinking", "web", "fetch", "file"] ++ ts) "fetch" := by
      simp [modeActive]
    have h5 : modeActive ("all" :: ts) "file" =
        modeActive (["exec", "thinking", "web", "fetch", "file"] ++ ts) "file" := by
      simp [modeActive]
    exact runMain_congr hu (eventsOfObj_congr5 h1 h2 h3 h4 h5) es keep n parse lines

/-- C10 witness: a duplicated `exec` token and the token `all` behave as
their set counterparts on the concrete demo input. -/
theorem C10_witness :
    runMain ["exec", "exec"] true false 0 demoParse demoLines5 =
      runMain ["exec"] true false 0 demoParse demoLines5 ∧
    runMain ["all"] true false 0 demoParse demoLines5 =
      runMain ["exec", "thinking", "web", "fetch", "file"] true false 0 demoParse
        demoLines5 :=
  ⟨C10_mode_set.1 ["exec", "exec"] ["exec"] true false 0 demoParse demoLines5
      (by intro x; simp),
    C10_mode_set.2 [] true false 0 demoParse demoLines5⟩
